import Mathlib

/-!
Verification development for the entity-hydration and lazy-resolution layer of the
khl chat-client SDK (files `khl/guild.py`, `khl/message.py`, `khl/command/rule.py`).

Raw wire payloads (Python dicts built from JSON) are modelled by `Val` / `Payload`.
Python `None` returned by `dict.get` on an absent key is modelled by `Option.none`;
an explicit JSON `null` value stored under a present key is `Val.vNull`.
`d[k]` indexing (which raises `KeyError` on absence) is modelled by `pget` returning
`none` on absence, with the overall operation made fallible (`Option`).
-/

/-- A JSON-like runtime value (the shape of the dicts the SDK hydrates from). -/
inductive Val where
  | vNull : Val
  | vBool : Bool → Val
  | vInt : Int → Val
  | vStr : String → Val
  | vList : List Val → Val
  | vObj : List (String × Val) → Val

/-- A Python keyword-argument dict / JSON object: ordered key-value pairs. -/
abbrev Payload := List (String × Val)

/-- Dict lookup: first binding wins; `none` models both `dict.get` returning
`None` on absence and the `KeyError` of `d[k]` (made fallible at use sites). -/
def pget : Payload → String → Option Val
  | [], _ => none
  | (k', v) :: rest, k => if k' = k then some v else pget rest k

/-- View a value as a dict, as required by Python `**v` unpacking and `.get` access. -/
def Val.asObj : Val → Option Payload
  | .vObj l => some l
  | _ => none

/-- `kwargs.get('extra', {})` followed by use as a dict: absent means `{}`;
a present dict is taken as-is; any other present value makes the subsequent
`len(extra)` / `extra[...]` use raise, modelled as failure. -/
def extraBag (p : Payload) : Option Payload :=
  match pget p "extra" with
  | none => some []
  | some (.vObj l) => some l
  | some _ => none

/-- Flag-decoding for `kwargs.get('_lazy_loaded_', False)`: callers only ever
pass booleans; anything else defaults to `False`. -/
def lazyFlag (p : Payload) : Bool :=
  match pget p "_lazy_loaded_" with
  | some (.vBool b) => b
  | _ => false

/-- Structural equality on values, modelling Python `==` as used by the `in`
membership tests of the rule layer (operands there are string ids). -/
def valBeq : Val → Val → Bool
  | .vNull, .vNull => true
  | .vBool a, .vBool b => a == b
  | .vInt a, .vInt b => a == b
  | .vStr a, .vStr b => a == b
  | .vList [], .vList [] => true
  | .vList (x :: xs), .vList (y :: ys) => valBeq x y && valBeq (.vList xs) (.vList ys)
  | .vObj [], .vObj [] => true
  | .vObj ((k, v) :: xs), .vObj ((k', v') :: ys) =>
      k == k' && valBeq v v' && valBeq (.vObj xs) (.vObj ys)
  | _, _ => false

/-- Modelled from the spec: `ChannelTypes` (the type discriminant of channel-list
entries, declared in `khl/interface.py` which is not under `src/`); `CATEGORY`
is the marker for grouping containers, an integer enum member. -/
def categoryTypeVal : Val := .vInt 0

/-- Python `i['type'] == ChannelTypes.CATEGORY` where `CATEGORY` is an `IntEnum`
member: numeric equality, under which `False == 0` also holds. -/
def valEqCategory : Val → Bool
  | .vInt n => n == 0
  | .vBool b => b == false
  | _ => false

/-- Modelled from the spec: `ChannelPrivacyTypes` (the channel-privacy enum from
`khl/_types.py`, not under `src/`): the two wire channel kinds, whose enum
values coincide with their member names. -/
inductive ChannelPrivacyTypes where
  | GROUP : ChannelPrivacyTypes
  | PERSON : ChannelPrivacyTypes
deriving DecidableEq

/-- The `.name` of a `ChannelPrivacyTypes` member. -/
def ChannelPrivacyTypes.name : ChannelPrivacyTypes → String
  | .GROUP => "GROUP"
  | .PERSON => "PERSON"

/-- `ChannelPrivacyTypes(value)`: enum construction from a stored value,
failing (`ValueError`) on anything that is not a member value. -/
def ChannelPrivacyTypes.ofVal : Val → Option ChannelPrivacyTypes
  | .vStr "GROUP" => some .GROUP
  | .vStr "PERSON" => some .PERSON
  | _ => none

/-- Modelled from the spec: `User` (`khl/user.py` is not under `src/`) — an author
reference hydrated from a payload, carrying a lazy-loaded flag; Rest-shape private
authors are id-only references. -/
structure User where
  fields : Payload
  lazyLoaded : Bool

/-- Modelled from the spec: `GuildUser` (`khl/user.py` is not under `src/`) — a
guild-scoped author built from an author payload merged with a `guild_id`. -/
structure GuildUser where
  guild_id : Option Val
  fields : Payload

/-- `GuildUser(**kwargs)`: the guild id is read from the (possibly merged) kwargs. -/
def mkGuildUser (p : Payload) : GuildUser :=
  { guild_id := pget p "guild_id", fields := p }

/-- A channel entity produced by `public_channel_factory(_gate_=..., **i)`
(`khl/channel.py` is not under `src/`): modelled from the spec as an addressable
channel object built from one raw listing entry. -/
structure ChannelEnt where
  raw : Payload

/-- Injectivity of the factory's wrapper (used to show category markers cannot
alias returned channels). -/
def public_channel_factory (i : Payload) : ChannelEnt := ⟨i⟩

/-- What `Guild._channels` can hold: `None` (unset), the raw value passed as a
`channels=` kwarg, or the list built by `fetch_channel_list`. -/
inductive ChanCache where
  | fromKwargs : Val → ChanCache
  | fromFetch : List ChannelEnt → ChanCache

/-- `khl.Guild`: the guild aggregate with its cached sub-resources
(`khl/guild.py`). Field names follow the Python attributes. -/
structure Guild where
  id : Option Val
  name : Val
  topic : Val
  master_id : Val
  icon : Val
  notify_type : Val
  region : Val
  enable_open : Val
  open_id : Val
  default_channel_id : Val
  welcome_channel_id : Val
  roles_c : Option Val
  channels_c : Option ChanCache
  channel_categories : List Payload
  loaded : Bool

/-- `Guild._update_fields(**kwargs)`: overwrites the scalar fields with
defaults, and sets `_roles` / `_channels` from the kwargs (`None` when absent
or explicitly null); it does not touch `id`, `_channel_categories`, `_loaded`. -/
def guildUpdateFields (g : Guild) (p : Payload) : Guild :=
  { g with
    name := (pget p "name").getD (.vStr "")
    topic := (pget p "topic").getD (.vStr "")
    master_id := (pget p "master_id").getD (.vStr "")
    icon := (pget p "icon").getD (.vStr "")
    notify_type := (pget p "notify_type").getD (.vInt 0)
    region := (pget p "region").getD (.vStr "")
    enable_open := (pget p "enable_open").getD (.vBool false)
    open_id := (pget p "open_id").getD (.vStr "")
    default_channel_id := (pget p "default_channel_id").getD (.vStr "")
    welcome_channel_id := (pget p "welcome_channel_id").getD (.vStr "")
    roles_c := match pget p "roles" with
      | some .vNull => none
      | o => o
    channels_c := match pget p "channels" with
      | some .vNull => none
      | some v => some (.fromKwargs v)
      | none => none }

/-- `Guild.__init__(**kwargs)`: sets `id`, clears `_channel_categories`, sets
`_loaded` from `_lazy_loaded_`, then runs `_update_fields(**kwargs)`. -/
def mkGuild (p : Payload) : Guild :=
  guildUpdateFields
    { id := pget p "id"
      name := .vStr "", topic := .vStr "", master_id := .vStr "", icon := .vStr ""
      notify_type := .vInt 0, region := .vStr "", enable_open := .vBool false
      open_id := .vStr "", default_channel_id := .vStr "", welcome_channel_id := .vStr ""
      roles_c := none, channels_c := none
      channel_categories := []
      loaded := lazyFlag p } p

/-- The partition loop of `Guild.fetch_channel_list`: walks the paginated raw
listing, appending category-typed entries to the category store and factory
results for the rest to the fresh channel list; `i['type']` raises on an entry
without a `type` key (overall failure). -/
def channelLoop : List Payload → List Payload → List ChannelEnt →
    Option (List Payload × List ChannelEnt)
  | [], cats, chans => some (cats, chans)
  | i :: rest, cats, chans =>
    match pget i "type" with
    | none => none
    | some t =>
      if valEqCategory t then channelLoop rest (cats ++ [i]) chans
      else channelLoop rest cats (chans ++ [public_channel_factory i])

/-- `Guild.fetch_channel_list(force_update=True)`: when forced or the cache is
unset, consumes the transport's paginated listing `raw`, partitions it, replaces
the channel cache wholesale and returns it together with `true` (a transport
fetch was issued); otherwise returns the existing cache with `false` (no fetch).
`forceOpt = none` models calling without the argument (Python default `True`). -/
def fetch_channel_list (raw : List Payload) (forceOpt : Option Bool) (g : Guild) :
    Option (Guild × ChanCache × Bool) :=
  let force := forceOpt.getD true
  if force || g.channels_c.isNone then
    match channelLoop raw g.channel_categories [] with
    | none => none
    | some (cats, chans) =>
      some ({ g with channel_categories := cats, channels_c := some (.fromFetch chans) },
            .fromFetch chans, true)
  else
    match g.channels_c with
    | some c => some (g, c, false)
    | none => none

/-- The `Guild.channels` property: returns the cache when set, otherwise raises
`ValueError` with the source's message (the `NotLoaded`-style guard). -/
def Guild.channels (g : Guild) : Except String ChanCache :=
  match g.channels_c with
  | some c => Except.ok c
  | none => Except.error "not loaded, please call `await fetch_channel_list()` first"

/-- `n` back-to-back `fetch_channel_list(force_update=True)` calls against the
same raw listing, threading the guild state. -/
def iterForcedFetch : Nat → List Payload → Guild → Option Guild
  | 0, _, g => some g
  | n + 1, raw, g =>
    match fetch_channel_list raw (some true) g with
    | none => none
    | some r => iterForcedFetch n raw r.1

/-- Category test on a raw listing entry (the branch condition of the loop,
total on entries that do carry a `type` key). -/
def entryIsCat (i : Payload) : Bool :=
  match pget i "type" with
  | some t => valEqCategory t
  | none => false

/-- Modelled from the spec: `PublicTextChannel` (`khl/channel.py` is not under
`src/`) — a guild text channel; message hydration constructs it with only id and
name, its guild id still unknown (`None`) and the entity unhydrated. -/
structure PublicTextChannel where
  id : Option Val
  name : Option Val
  guild_id : Option Val
  loaded : Bool

/-- Modelled from the spec: `PrivateChannel` (`khl/channel.py` is not under
`src/`) — a private chat keyed by a chat code, carrying the peer reference. -/
structure PrivateChannel where
  id : Option Val
  target_info : User

/-- The two channel variants a `Context` can hold. -/
inductive ChannelRef where
  | publicText : PublicTextChannel → ChannelRef
  | privateCh : PrivateChannel → ChannelRef

/-- Modelled from the spec: `Context` (`khl/context.py` is not under `src/`) —
the pairing of a channel reference and an optional guild reference that every
message owns. -/
structure Context where
  channel : ChannelRef
  guild : Option Guild
  lazyLoaded : Bool

/-- The fields set by `RawMessage.__init__` and untouched by `_update_fields`
(`_channel_type` is kept with the per-variant fields since the Rest branch of
`_update_fields` overwrites it). -/
structure RawFields where
  msg_id0 : Option Val
  type_v : Option Val
  target_id : Option Val
  author_id : Option Val
  content : Option Val
  msg_timestamp : Option Val
  nonce : Option Val
  extra : Val

/-- `RawMessage.__init__(**kwargs)` (plus the `content`/`_type` re-reads of
`Message.__init__`, which read the same keys). -/
def rawInit (p : Payload) : RawFields :=
  { msg_id0 := pget p "msg_id"
    type_v := pget p "type"
    target_id := pget p "target_id"
    author_id := pget p "author_id"
    content := pget p "content"
    msg_timestamp := pget p "msg_timestamp"
    nonce := pget p "nonce"
    extra := (pget p "extra").getD (.vObj []) }

/-- `Message.__init__`: `self._id = kwargs.get('rong_id', kwargs.get('msg_id',
kwargs.get('id')))`. -/
def msgIdInit (p : Payload) : Option Val :=
  (pget p "rong_id").orElse fun _ => (pget p "msg_id").orElse fun _ => pget p "id"

mutual
/-- Executable, kernel-reducible size of a value (the auto-derived `SizeOf`
for the nested inductive `Val` has no executable code); used only to seed
recursion fuel for the self-typed quote recursion. -/
def Val.sz : Val → Nat
  | .vNull => 1
  | .vBool _ => 1
  | .vInt _ => 1
  | .vStr _ => 1
  | .vList xs => 1 + szList xs
  | .vObj xs => 1 + szPayload xs
/-- Size of a list of values. -/
def szList : List Val → Nat
  | [] => 0
  | x :: xs => Val.sz x + szList xs
/-- Size of the values of a payload. -/
def szPayload : List (String × Val) → Nat
  | [] => 0
  | (_, v) :: xs => Val.sz v + szPayload xs
end

/-- Size of a payload, strictly positive. -/
def psize (p : Payload) : Nat := 1 + szPayload p

/-- The fields `PublicMessage._update_fields` assigns (parametrised by the
message type so the self-typed `quote` can nest). -/
structure PubCoreG (M : Type) where
  ctx : Context
  author : GuildUser
  mention : Option Val
  mention_all : Option Val
  mention_roles : Option Val
  mention_here : Option Val
  mention_part : Option Val
  mention_role_part : Option Val
  channel_part : Option Val
  quote : Option M
  embeds : Option Val
  attachments : Option Val
  reactions : Option Val
  channel_type : Option Val

/-- `khl.PublicMessage`: raw-frame fields, the `Message._id`, the
`_update_fields` fields, and the `_loaded` flag. -/
inductive PublicMessage where
  | mk : RawFields → Option Val → PubCoreG PublicMessage → Bool → PublicMessage

/-- `PublicMessage.__init__` applied to an already-computed field record:
raw-frame init, `_id` chain, `_update_fields` output, `_loaded` flag. -/
def assemblePub (p : Payload) (c : PubCoreG PublicMessage) : PublicMessage :=
  .mk (rawInit p) (msgIdInit p) c (lazyFlag p)

/-- The shared dual-path quote rule: `x.get('quote')` absent or `None` means no
quote; a dict is hydrated recursively into a message of the same variant; any
other value makes the `**`-unpacking construction raise. -/
def quoteVia {M : Type} (hydQ : Payload → Option M) : Option Val → Option (Option M)
  | none => some none
  | some .vNull => some none
  | some (.vObj q) => (hydQ q).map some
  | some _ => none

/-- The four `extra['mention*']` reads of the Event branch (each raising
`KeyError` when absent). -/
def pubMention4 (extra : Payload) : Option (Val × Val × Val × Val) := do
  let a ← pget extra "mention"
  let b ← pget extra "mention_all"
  let c ← pget extra "mention_roles"
  let d ← pget extra "mention_here"
  pure (a, b, c, d)

/-- The `extra['kmarkdown']['...']` reads of the Event branch. -/
def pubKmParts (extra : Payload) : Option (Val × Val × Val) := do
  let kmV ← pget extra "kmarkdown"
  let kmF ← kmV.asObj
  let a ← pget kmF "mention_part"
  let b ← pget kmF "mention_role_part"
  let c ← pget kmF "channel_part"
  pure (a, b, c)

/-- The Event-source branch of `PublicMessage._update_fields` (taken when the
`extra` bag is non-empty): conversational fields are read (with `KeyError` on
absence) from `extra.*`, the context gets an id-hydrated guild from
`extra['guild_id']`, and `embeds`/`attachments`/`reactions`/`_channel_type`
keep their previous values. `hydQ` hydrates the self-typed quote payload. -/
def pubEventFields (hydQ : Payload → Option PublicMessage) (extra : Payload)
    (channel : PublicTextChannel) (oldEmbeds oldAtt oldReact oldCT : Option Val) :
    Option (PubCoreG PublicMessage) := do
  let gid ← pget extra "guild_id"
  let authorV ← pget extra "author"
  let authorF ← authorV.asObj
  let (mention, mention_all, mention_roles, mention_here) ← pubMention4 extra
  let (mention_part, mention_role_part, channel_part) ← pubKmParts extra
  let quote ← quoteVia hydQ (pget extra "quote")
  pure { ctx := { channel := .publicText channel
                  guild := some (mkGuild [("id", gid)])
                  lazyLoaded := true }
         author := mkGuildUser (("guild_id", gid) :: authorF)
         mention := some mention
         mention_all := some mention_all
         mention_roles := some mention_roles
         mention_here := some mention_here
         mention_part := some mention_part
         mention_role_part := some mention_role_part
         channel_part := some channel_part
         quote := quote
         embeds := oldEmbeds
         attachments := oldAtt
         reactions := oldReact
         channel_type := oldCT }

/-- The Rest branch's author source: `GuildUser(**kwargs.get('author', {}))` —
absent means an empty dict; a non-dict value makes the `**`-unpacking raise. -/
def restAuthorF (p : Payload) : Option Payload :=
  match pget p "author" with
  | none => some ([] : Payload)
  | some v => v.asObj

/-- The Rest branch's mention-fragment source:
`kwargs.get('mention_info', kwargs.get('kmarkdown', {...empty lists...}))`,
which must be a dict for the subsequent `.get` calls. -/
def restMentionInfo (p : Payload) : Option Payload :=
  match pget p "mention_info" with
  | some v => v.asObj
  | none =>
    match pget p "kmarkdown" with
    | some v => v.asObj
    | none => some ([("mention_part", Val.vList []),
                     ("mention_role_part", Val.vList []),
                     ("channel_part", Val.vList [])] : Payload)

/-- The Rest-source branch of `PublicMessage._update_fields` (taken when the
`extra` bag is empty): fields are read from the top-level keys with
empty/`None` defaults, the context carries no guild, and `_channel_type` is
overwritten with `ChannelPrivacyTypes.PERSON.name`. -/
def pubRestFields (hydQ : Payload → Option PublicMessage) (p : Payload)
    (channel : PublicTextChannel) : Option (PubCoreG PublicMessage) := do
  let authorF ← restAuthorF p
  let mention_info ← restMentionInfo p
  let quote ← quoteVia hydQ (pget p "quote")
  pure { ctx := { channel := .publicText channel
                  guild := none
                  lazyLoaded := false }
         author := mkGuildUser authorF
         mention := pget p "mention"
         mention_all := pget p "mention_all"
         mention_roles := pget p "mention_roles"
         mention_here := pget p "mention_here"
         mention_part := pget mention_info "mention_part"
         mention_role_part := pget mention_info "mention_role_part"
         channel_part := pget mention_info "channel_part"
         quote := quote
         embeds := pget p "embeds"
         attachments := pget p "attachments"
         reactions := pget p "reactions"
         channel_type := some (.vStr ChannelPrivacyTypes.PERSON.name) }

/-- `PublicMessage._update_fields(**kwargs)` body: source selection
(`from_event = len(extra) != 0`), channel construction, then the per-source
branch. The `_lazy_loaded_` flag of the built `Context` is `from_event`. -/
def pubFieldsCore (hydQ : Payload → Option PublicMessage) (p : Payload)
    (oldEmbeds oldAtt oldReact oldCT : Option Val) :
    Option (PubCoreG PublicMessage) := do
  let extra ← extraBag p
  let from_event := extra.length != 0
  let channel : PublicTextChannel :=
    { id := if from_event then pget p "target_id" else pget p "channel_id"
      name := if from_event then pget extra "channel_name" else none
      guild_id := none
      loaded := false }
  if from_event then pubEventFields hydQ extra channel oldEmbeds oldAtt oldReact oldCT
  else pubRestFields hydQ p channel

/-- `PublicMessage._update_fields(**kwargs)`, fuelled for the self-typed quote
recursion (each nested quote payload is a strict sub-value of its parent, so a
fuel of `psize kwargs` can never run out; fuel `0` is unreachable from the
fuelled entry points below). -/
def pubFieldsF : Nat → Payload → Option Val → Option Val → Option Val → Option Val →
    Option (PubCoreG PublicMessage)
  | 0, _, _, _, _, _ => none
  | n + 1, p, oldEmbeds, oldAtt, oldReact, oldCT =>
    pubFieldsCore
      (fun q => (pubFieldsF n q none none none (pget q "channel_type")).map (assemblePub q))
      p oldEmbeds oldAtt oldReact oldCT

/-- `PublicMessage(**kwargs)`: full construction from one payload. -/
def mkPublicMessage (p : Payload) : Option PublicMessage :=
  (pubFieldsF (psize p) p none none none (pget p "channel_type")).map (assemblePub p)

/-- Accessors for the `PublicMessage` record. -/
def PublicMessage.rawF : PublicMessage → RawFields
  | .mk r _ _ _ => r

def PublicMessage.idm : PublicMessage → Option Val
  | .mk _ i _ _ => i

def PublicMessage.core : PublicMessage → PubCoreG PublicMessage
  | .mk _ _ c _ => c

def PublicMessage.loadedF : PublicMessage → Bool
  | .mk _ _ _ l => l

/-- `PublicMessage._update_fields` run against an existing message (the `load()`
path): the Event branch keeps the previous `embeds`/`attachments`/`reactions`/
`_channel_type`; raw-frame fields, `_id` and `_loaded` are untouched. -/
def updateFieldsPub (m : PublicMessage) (p : Payload) : Option PublicMessage :=
  (pubFieldsF (psize p) p m.core.embeds m.core.attachments m.core.reactions
      m.core.channel_type).map
    (fun c => .mk m.rawF m.idm c m.loadedF)

/-- The fields `PrivateMessage._update_fields` assigns (parametrised by the
message type so the self-typed `quote` can nest). -/
structure PrivCoreG (M : Type) where
  ctx : Context
  author : User
  quote : Option M
  read_status : Option Val
  embeds : Option Val
  attachments : Option Val
  reactions : Option Val
  channel_type : Option Val

/-- `khl.PrivateMessage`: raw-frame fields, the `Message._id`, the
`_update_fields` fields, and the `_loaded` flag. -/
inductive PrivateMessage where
  | mk : RawFields → Option Val → PrivCoreG PrivateMessage → Bool → PrivateMessage

/-- `PrivateMessage.__init__` applied to an already-computed field record. -/
def assemblePriv (p : Payload) (c : PrivCoreG PrivateMessage) : PrivateMessage :=
  .mk (rawInit p) (msgIdInit p) c (lazyFlag p)

/-- The Event-source branch of `PrivateMessage._update_fields`: the author comes
from `extra['author']` (with `_lazy_loaded_ = not from_event`), the private
channel is keyed by `extra['code']`, the quote is read from `extra`, and
`read_status`/`embeds`/`attachments`/`reactions`/`_channel_type` keep their
previous values. -/
def privEventFields (hydQ : Payload → Option PrivateMessage) (extra : Payload)
    (oldRead oldEmbeds oldAtt oldReact oldCT : Option Val) :
    Option (PrivCoreG PrivateMessage) := do
  let authorV ← pget extra "author"
  let authorF ← authorV.asObj
  let author : User := { fields := authorF, lazyLoaded := false }
  let code ← pget extra "code"
  let quote ← quoteVia hydQ (pget extra "quote")
  pure { ctx := { channel := .privateCh { id := some code, target_info := author }
                  guild := none
                  lazyLoaded := false }
         author := author
         quote := quote
         read_status := oldRead
         embeds := oldEmbeds
         attachments := oldAtt
         reactions := oldReact
         channel_type := oldCT }

/-- The Rest-source branch of `PrivateMessage._update_fields`: an id-only author
built from `author_id` (lazy-loaded flag `not from_event = True`), the channel
keyed by `kwargs.get('code')`, `attachments` normalized (`False` collapses to
`None`), and `_channel_type` overwritten with `PERSON`'s name. -/
def privRestFields (hydQ : Payload → Option PrivateMessage) (p : Payload) :
    Option (PrivCoreG PrivateMessage) := do
  let author : User := { fields := [("id", (pget p "author_id").getD .vNull)]
                         lazyLoaded := true }
  let quote ← quoteVia hydQ (pget p "quote")
  pure { ctx := { channel := .privateCh { id := pget p "code", target_info := author }
                  guild := none
                  lazyLoaded := false }
         author := author
         quote := quote
         read_status := pget p "read_status"
         embeds := pget p "embeds"
         attachments := match pget p "attachments" with
           | some (.vBool false) => none
           | o => o
         reactions := pget p "reactions"
         channel_type := some (.vStr ChannelPrivacyTypes.PERSON.name) }

/-- `PrivateMessage._update_fields(**kwargs)` body: source selection, then the
per-source branch. -/
def privFieldsCore (hydQ : Payload → Option PrivateMessage) (p : Payload)
    (oldRead oldEmbeds oldAtt oldReact oldCT : Option Val) :
    Option (PrivCoreG PrivateMessage) := do
  let extra ← extraBag p
  let from_event := extra.length != 0
  if from_event then privEventFields hydQ extra oldRead oldEmbeds oldAtt oldReact oldCT
  else privRestFields hydQ p

/-- `PrivateMessage._update_fields(**kwargs)`, fuelled exactly like
`pubFieldsF`. -/
def privFieldsF : Nat → Payload → Option Val → Option Val → Option Val → Option Val →
    Option Val → Option (PrivCoreG PrivateMessage)
  | 0, _, _, _, _, _, _ => none
  | n + 1, p, oldRead, oldEmbeds, oldAtt, oldReact, oldCT =>
    privFieldsCore
      (fun q => (privFieldsF n q none none none none (pget q "channel_type")).map
        (assemblePriv q))
      p oldRead oldEmbeds oldAtt oldReact oldCT

/-- `PrivateMessage(**kwargs)`: full construction from one payload. -/
def mkPrivateMessage (p : Payload) : Option PrivateMessage :=
  (privFieldsF (psize p) p none none none none (pget p "channel_type")).map (assemblePriv p)

/-- Accessors for the `PrivateMessage` record. -/
def PrivateMessage.rawF : PrivateMessage → RawFields
  | .mk r _ _ _ => r

def PrivateMessage.idm : PrivateMessage → Option Val
  | .mk _ i _ _ => i

def PrivateMessage.core : PrivateMessage → PrivCoreG PrivateMessage
  | .mk _ _ c _ => c

def PrivateMessage.loadedF : PrivateMessage → Bool
  | .mk _ _ _ l => l

def PrivateMessage.withLoaded : PrivateMessage → Bool → PrivateMessage
  | .mk r i c _, b => .mk r i c b

/-- `PrivateMessage._update_fields` run against an existing message (the
`load()` path). -/
def updateFieldsPriv (m : PrivateMessage) (p : Payload) : Option PrivateMessage :=
  (privFieldsF (psize p) p m.core.read_status m.core.embeds m.core.attachments
      m.core.reactions m.core.channel_type).map
    (fun c => .mk m.rawF m.idm c m.loadedF)

/-- `PrivateMessage.load()`: one view fetch, re-hydration, then the flag is set.
`viewResp` is the transport's answer. On failure the flag keeps its previous
value (`_loaded` is only assigned after a successful `_update_fields`). -/
def privLoad (viewResp : Except Unit Payload) (m : PrivateMessage) :
    PrivateMessage × Except Unit Unit :=
  match viewResp with
  | .error e => (m, .error e)
  | .ok p =>
    match updateFieldsPriv m p with
    | none => (m, .error ())
    | some m1 => (m1.withLoaded true, .ok ())

def PublicMessage.withLoaded : PublicMessage → Bool → PublicMessage
  | .mk r i c _, b => .mk r i c b

/-- Modelled from the spec: `Channel.load()` of the missing `khl/channel.py` —
fetches the channel's canonical representation, overwrites its fields (learning
`guild_id` from the payload) and sets its hydration flag. -/
def channelLoadApply (_c : PublicTextChannel) (p : Payload) : PublicTextChannel :=
  { id := pget p "id"
    name := pget p "name"
    guild_id := pget p "guild_id"
    loaded := true }

/-- The tail of `PublicMessage.load()` after the channel's guild id is known:
install the channel, build the id-only guild reference into the context,
propagate the guild id onto the author, and set `_loaded = True`. -/
def finishPubLoad (m1 : PublicMessage) (c2 : PublicTextChannel) : PublicMessage :=
  match m1 with
  | .mk r i core _ =>
    .mk r i
      { core with
        ctx := { core.ctx with
                 channel := .publicText c2
                 guild := some (mkGuild [("id", c2.guild_id.getD .vNull)]) }
        author := { core.author with guild_id := c2.guild_id } }
      true

/-- `PublicMessage.load()`: step 1 fetches the canonical message view and
re-runs `_update_fields`; step 2, when the hydrated channel's guild id is still
unknown, fetches that channel to learn it; only then is `_loaded` set. A
failing step propagates (`error`) and `_loaded` is never assigned on those
paths (on a step-1 hydration error the returned state abstracts the partially
mutated Python object; its `_loaded` flag is nevertheless exact, since
`_update_fields` never touches it). -/
def pubLoad (viewResp chanResp : Except Unit Payload) (m : PublicMessage) :
    PublicMessage × Except Unit Unit :=
  match viewResp with
  | .error e => (m, .error e)
  | .ok p =>
    match updateFieldsPub m p with
    | none => (m, .error ())
    | some m1 =>
      match m1.core.ctx.channel with
      | .publicText c =>
        if c.guild_id.isNone then
          match chanResp with
          | .error e => (m1, .error e)
          | .ok cp => (finishPubLoad m1 (channelLoadApply c cp), .ok ())
        else (finishPubLoad m1 c, .ok ())
      | .privateCh _ => (m1.withLoaded true, .ok ())

/-- The abstract `khl.Message` a rule is evaluated against: one of the two
concrete variants. -/
inductive Message where
  | pub : PublicMessage → Message
  | priv : PrivateMessage → Message

/-- Modelled from the spec: the bot handle consumed by `Rule.is_bot_mentioned`;
`me_id` is the id `await bot.fetch_me()` reports. -/
structure BotSelf where
  me_id : Val

/-- Python `x in msg.mention`: membership via `==` over the stored mention
list; anything that is not a list makes the `in` raise (`mention` is `None`
on an unhydrated Rest message). -/
def mentionContains (x : Val) : Option Val → Option Bool
  | some (.vList xs) => some (xs.any (fun y => valBeq x y))
  | _ => none

/-- `Rule.is_bot_mentioned(bot)`'s rule applied to a message: the second
component counts how many times the network-backed `bot.fetch_me()` was
awaited (`0` = short-circuited before the fetch). -/
def Rule.is_bot_mentioned (bot : BotSelf) (msg : Message) : Option Bool × Nat :=
  match msg with
  | .priv _ => (some false, 0)
  | .pub m => (mentionContains bot.me_id m.core.mention, 1)

/-- `Rule.is_user_mentioned(user)`'s rule applied to a message (purely local). -/
def Rule.is_user_mentioned (user : User) (msg : Message) : Option Bool :=
  match msg with
  | .priv _ => some false
  | .pub m => mentionContains ((pget user.fields "id").getD .vNull) m.core.mention

/-- `Rule.is_mention_all`: returns `False` for a non-public message, otherwise
the raw `mention_all` attribute value. -/
def Rule.is_mention_all : Message → Option Val
  | .priv _ => some (.vBool false)
  | .pub m => m.core.mention_all

/-! ## Helper lemmas -/

theorem psize_pos (p : Payload) : 0 < psize p := by
  unfold psize
  omega

theorem length_filter_not_add (l : List Payload) (f : Payload → Bool) :
    (l.filter f).length + (l.filter (fun i => !f i)).length = l.length := by
  induction l with
  | nil => simp
  | cons a rest ih =>
    by_cases h : f a = true <;> simp [List.filter_cons, h] <;> omega

/-- What a successful partition loop run returns: the category store extended
(in order) with the category-typed entries, and the fresh channel accumulator
extended with the factory images of the rest. -/
theorem channelLoop_spec (raw : List Payload) :
    ∀ cats chans res, channelLoop raw cats chans = some res →
      res = (cats ++ raw.filter entryIsCat,
             chans ++ (raw.filter (fun i => !entryIsCat i)).map public_channel_factory) := by
  induction raw with
  | nil =>
    intro cats chans res h
    simp only [channelLoop, Option.some.injEq] at h
    simp [← h]
  | cons i rest ih =>
    intro cats chans res h
    simp only [channelLoop] at h
    cases hty : pget i "type" with
    | none => simp [hty] at h
    | some t =>
      simp only [hty] at h
      have hcat : entryIsCat i = valEqCategory t := by simp [entryIsCat, hty]
      by_cases hc : valEqCategory t = true
      · rw [if_pos hc] at h
        have := ih _ _ _ h
        simp [this, List.filter_cons, hcat, hc]
      · rw [if_neg hc] at h
        have := ih _ _ _ h
        simp only [Bool.not_eq_true] at hc
        simp [this, List.filter_cons, hcat, hc]

/-- Inversion of `fetch_channel_list` when the returned flag records that a
transport fetch was issued. -/
theorem fetch_channel_list_fetched {raw : List Payload} {fo : Option Bool} {g : Guild}
    {r : Guild × ChanCache × Bool}
    (h : fetch_channel_list raw fo g = some r) (hf : r.2.2 = true) :
    r.1 = { g with
            channel_categories := g.channel_categories ++ raw.filter entryIsCat
            channels_c := some (.fromFetch
              ((raw.filter (fun i => !entryIsCat i)).map public_channel_factory)) }
    ∧ r.2.1 = .fromFetch ((raw.filter (fun i => !entryIsCat i)).map public_channel_factory) := by
  simp only [fetch_channel_list] at h
  split at h
  · cases hloop : channelLoop raw g.channel_categories [] with
    | none => rw [hloop] at h; cases h
    | some res =>
      obtain ⟨cats, chans⟩ := res
      rw [hloop] at h
      have hspec := channelLoop_spec raw _ _ _ hloop
      simp only [Prod.mk.injEq] at hspec
      obtain ⟨hcats, hchans⟩ := hspec
      simp only [Option.some.injEq] at h
      subst h
      simp only [List.nil_append] at hchans
      subst hcats; subst hchans
      exact ⟨rfl, rfl⟩
  · cases hc : g.channels_c with
    | none => rw [hc] at h; cases h
    | some c =>
      rw [hc] at h
      simp only [Option.some.injEq] at h
      subst h
      simp at hf

theorem fetch_forced_flag {raw : List Payload} {g : Guild} {r : Guild × ChanCache × Bool}
    (h : fetch_channel_list raw (some true) g = some r) : r.2.2 = true := by
  simp only [fetch_channel_list, Option.getD_some, Bool.true_or, if_true] at h
  cases hloop : channelLoop raw g.channel_categories [] with
  | none => rw [hloop] at h; cases h
  | some res =>
    obtain ⟨cats, chans⟩ := res
    rw [hloop] at h
    simp only [Option.some.injEq] at h
    subst h
    rfl

theorem fetch_cache_hit {g : Guild} {c : ChanCache} (hc : g.channels_c = some c)
    (raw : List Payload) :
    fetch_channel_list raw (some false) g = some (g, c, false) := by
  simp [fetch_channel_list, hc]

/-! ## Sample data for witnesses -/

/-- A raw channel listing with one category marker and two ordinary channels. -/
def rawSample : List Payload :=
  [[("id", .vStr "c1"), ("type", .vInt 1)],
   [("id", .vStr "cat"), ("type", .vInt 0)],
   [("id", .vStr "c2"), ("type", .vInt 1)]]

/-- A freshly constructed guild (no `channels` kwarg, so the cache is unset). -/
def guildSample : Guild := mkGuild [("id", .vStr "g1")]

/-! ## Claim C2 -/

/-- C2: `Guild.fetch_channel_list` with `force_update=False` called twice issues
exactly one transport fetch — the first call (empty cache) fetches, the second
returns the existing cache without a request; with `force_update=True` twice it
issues two fetches; and calling without the argument behaves exactly like
`force_update=True` (the Python default), i.e. the default refetches
unconditionally. -/
theorem claim_C2_fetch_cache :
    (∀ (g : Guild) (raw1 raw2 : List Payload) (r1 : Guild × ChanCache × Bool),
       g.channels_c = none →
       fetch_channel_list raw1 (some false) g = some r1 →
       r1.2.2 = true ∧
       fetch_channel_list raw2 (some false) r1.1 = some (r1.1, r1.2.1, false))
  ∧ (∀ (g : Guild) (raw1 raw2 : List Payload) (r1 r2 : Guild × ChanCache × Bool),
       fetch_channel_list raw1 (some true) g = some r1 →
       fetch_channel_list raw2 (some true) r1.1 = some r2 →
       r1.2.2 = true ∧ r2.2.2 = true)
  ∧ (∀ (raw : List Payload) (g : Guild),
       fetch_channel_list raw none g = fetch_channel_list raw (some true) g) := by
  refine ⟨?_, ?_, ?_⟩
  · intro g raw1 raw2 r1 hnone h1
    have hflag : r1.2.2 = true := by
      simp only [fetch_channel_list, Option.getD_some, hnone, Option.isNone_none,
        Bool.or_true, if_true] at h1
      cases hloop : channelLoop raw1 g.channel_categories [] with
      | none => rw [hloop] at h1; cases h1
      | some res =>
        obtain ⟨cats, chans⟩ := res
        rw [hloop] at h1
        simp only [Option.some.injEq] at h1
        subst h1; rfl
    refine ⟨hflag, ?_⟩
    obtain ⟨hg, hcache⟩ := fetch_channel_list_fetched h1 hflag
    have hc : r1.1.channels_c = some r1.2.1 := by rw [hg, hcache]
    exact fetch_cache_hit hc raw2
  · intro g raw1 raw2 r1 r2 h1 h2
    exact ⟨fetch_forced_flag h1, fetch_forced_flag h2⟩
  · intro raw g
    rfl

/-- Witness for C2: a fresh guild and a concrete listing run through the three
scenarios. -/
def fetchW1 : Guild × ChanCache × Bool :=
  (fetch_channel_list rawSample (some false) guildSample).get (by rfl)

theorem claim_C2_fetch_cache_w :
    guildSample.channels_c = none ∧
    fetch_channel_list rawSample (some false) guildSample = some fetchW1 ∧
    (fetchW1.2.2 = true ∧
     fetch_channel_list rawSample (some false) fetchW1.1 = some (fetchW1.1, fetchW1.2.1, false)) :=
  ⟨rfl, rfl, claim_C2_fetch_cache.1 guildSample rawSample rawSample fetchW1 rfl rfl⟩

/-! ## Claim C5 -/

/-- C5: accessing `Guild.channels` while the channel cache is unset — as it is
on any guild constructed without a `channels` kwarg, i.e. before any successful
`fetch_channel_list()` — raises the `NotLoaded`-style `ValueError` instead of
returning an empty collection; after any successful `fetch_channel_list` call
it returns the cached collection that call produced. -/
theorem claim_C5_channels_guard :
    (∀ g : Guild, g.channels_c = none →
       Guild.channels g =
         Except.error "not loaded, please call `await fetch_channel_list()` first")
  ∧ (∀ p : Payload, pget p "channels" = none → (mkGuild p).channels_c = none)
  ∧ (∀ (raw : List Payload) (fo : Option Bool) (g : Guild) (r : Guild × ChanCache × Bool),
       fetch_channel_list raw fo g = some r → Guild.channels r.1 = Except.ok r.2.1) := by
  refine ⟨?_, ?_, ?_⟩
  · intro g h
    simp [Guild.channels, h]
  · intro p h
    simp [mkGuild, guildUpdateFields, h]
  · intro raw fo g r h
    simp only [fetch_channel_list] at h
    split at h
    · cases hloop : channelLoop raw g.channel_categories [] with
      | none => rw [hloop] at h; cases h
      | some res =>
        obtain ⟨cats, chans⟩ := res
        rw [hloop] at h
        simp only [Option.some.injEq] at h
        subst h
        simp [Guild.channels]
    · cases hc : g.channels_c with
      | none => rw [hc] at h; cases h
      | some c =>
        rw [hc] at h
        simp only [Option.some.injEq] at h
        subst h
        simp [Guild.channels, hc]

/-- Witness for C5: the fresh sample guild errors, and the state after a fetch
returns the fetched cache. -/
def fetchW5 : Guild × ChanCache × Bool :=
  (fetch_channel_list rawSample none guildSample).get (by rfl)

theorem claim_C5_channels_guard_w :
    guildSample.channels_c = none ∧
    Guild.channels guildSample =
      Except.error "not loaded, please call `await fetch_channel_list()` first" ∧
    fetch_channel_list rawSample none guildSample = some fetchW5 ∧
    Guild.channels fetchW5.1 = Except.ok fetchW5.2.1 :=
  ⟨rfl, claim_C5_channels_guard.1 guildSample rfl, rfl,
   claim_C5_channels_guard.2.2 rawSample none guildSample fetchW5 rfl⟩

/-! ## Claim C6 -/

/-- C6: whenever `fetch_channel_list` actually fetches, the returned collection
is exactly the factory image of the non-category entries of the raw listing (so
its length is the total minus the number of category entries), and no category
marker's channel object ever appears in it. -/
theorem claim_C6_partition :
    ∀ (g : Guild) (raw : List Payload) (fo : Option Bool) (r : Guild × ChanCache × Bool),
      fetch_channel_list raw fo g = some r → r.2.2 = true →
      r.2.1 = .fromFetch ((raw.filter (fun i => !entryIsCat i)).map public_channel_factory)
      ∧ ((raw.filter (fun i => !entryIsCat i)).map public_channel_factory).length
          = raw.length - (raw.filter entryIsCat).length
      ∧ ∀ i ∈ raw, entryIsCat i = true →
          public_channel_factory i ∉
            (raw.filter (fun i => !entryIsCat i)).map public_channel_factory := by
  intro g raw fo r h hf
  obtain ⟨-, hcache⟩ := fetch_channel_list_fetched h hf
  refine ⟨hcache, ?_, ?_⟩
  · have := length_filter_not_add raw entryIsCat
    simp only [List.length_map]
    omega
  · intro i hi hcat hmem
    simp only [List.mem_map, List.mem_filter] at hmem
    obtain ⟨j, ⟨hj, hjcat⟩, hfac⟩ := hmem
    have : j = i := congrArg ChannelEnt.raw hfac
    subst this
    rw [hcat] at hjcat
    cases hjcat

/-- Witness for C6: the sample listing (one category, two channels) fetched
into the fresh sample guild. -/
def fetchW6 : Guild × ChanCache × Bool :=
  (fetch_channel_list rawSample (some true) guildSample).get (by rfl)

theorem claim_C6_partition_w :
    fetch_channel_list rawSample (some true) guildSample = some fetchW6 ∧
    fetchW6.2.2 = true ∧
    (fetchW6.2.1 = .fromFetch
        ((rawSample.filter (fun i => !entryIsCat i)).map public_channel_factory)
     ∧ ((rawSample.filter (fun i => !entryIsCat i)).map public_channel_factory).length
         = rawSample.length - (rawSample.filter entryIsCat).length
     ∧ ∀ i ∈ rawSample, entryIsCat i = true →
         public_channel_factory i ∉
           (rawSample.filter (fun i => !entryIsCat i)).map public_channel_factory) :=
  ⟨rfl, rfl, claim_C6_partition guildSample rawSample (some true) fetchW6 rfl rfl⟩

/-! ## Claim C10 -/

theorem iterForcedFetch_cats_length (raw : List Payload) :
    ∀ (n : Nat) (g gn : Guild), iterForcedFetch n raw g = some gn →
      gn.channel_categories.length
        = g.channel_categories.length + n * (raw.filter entryIsCat).length := by
  intro n
  induction n with
  | zero =>
    intro g gn h
    simp only [iterForcedFetch, Option.some.injEq] at h
    subst h
    simp
  | succ k ih =>
    intro g gn h
    simp only [iterForcedFetch] at h
    cases hf : fetch_channel_list raw (some true) g with
    | none => rw [hf] at h; cases h
    | some r =>
      rw [hf] at h
      have hfl : r.2.2 = true := fetch_forced_flag hf
      have hg := (fetch_channel_list_fetched hf hfl).1
      have hlen : r.1.channel_categories.length
          = g.channel_categories.length + (raw.filter entryIsCat).length := by
        rw [hg]; simp
      have := ih r.1 gn h
      rw [this, hlen]
      ring

/-- C10: the internal category store is cleared only at construction —
`_update_fields` (hence `load()`) preserves it, and every fetch that actually
runs appends the listing's category entries to it without resetting, while the
channel cache is replaced wholesale; consequently after `n` forced refetches of
one listing the store holds `n * k` entries, `k` the listing's category count. -/
theorem claim_C10_category_accumulation :
    (∀ p : Payload, (mkGuild p).channel_categories = [])
  ∧ (∀ (g : Guild) (p : Payload),
       (guildUpdateFields g p).channel_categories = g.channel_categories)
  ∧ (∀ (raw : List Payload) (g : Guild) (r : Guild × ChanCache × Bool),
       fetch_channel_list raw (some true) g = some r →
       r.1.channel_categories = g.channel_categories ++ raw.filter entryIsCat
       ∧ r.1.channels_c = some (.fromFetch
           ((raw.filter (fun i => !entryIsCat i)).map public_channel_factory)))
  ∧ (∀ (n : Nat) (raw : List Payload) (g gn : Guild),
       g.channel_categories = [] →
       iterForcedFetch n raw g = some gn →
       gn.channel_categories.length = n * (raw.filter entryIsCat).length) := by
  refine ⟨?_, ?_, ?_, ?_⟩
  · intro p; simp [mkGuild, guildUpdateFields]
  · intro g p; simp [guildUpdateFields]
  · intro raw g r h
    have hg := (fetch_channel_list_fetched h (fetch_forced_flag h)).1
    rw [hg]
    exact ⟨rfl, rfl⟩
  · intro n raw g gn hempty h
    have := iterForcedFetch_cats_length raw n g gn h
    rw [hempty] at this
    simpa using this

/-- Witness for C10: two forced refetches of the sample listing (one category
entry each) leave two accumulated category entries. -/
def iterW10 : Guild :=
  (iterForcedFetch 2 rawSample guildSample).get (by rfl)

theorem claim_C10_category_accumulation_w :
    guildSample.channel_categories = [] ∧
    iterForcedFetch 2 rawSample guildSample = some iterW10 ∧
    iterW10.channel_categories.length = 2 * (rawSample.filter entryIsCat).length :=
  ⟨rfl, rfl, claim_C10_category_accumulation.2.2.2 2 rawSample guildSample iterW10 rfl rfl⟩

/-! ## Hydration inversion lemmas -/

theorem mkPublicMessage_inv {p : Payload} {m : PublicMessage}
    (h : mkPublicMessage p = some m) :
    ∃ (hydQ : Payload → Option PublicMessage) (core : PubCoreG PublicMessage),
      pubFieldsCore hydQ p none none none (pget p "channel_type") = some core ∧
      m = assemblePub p core := by
  simp only [mkPublicMessage] at h
  obtain ⟨k, hk⟩ : ∃ k, psize p = k + 1 := ⟨psize p - 1, by have := psize_pos p; omega⟩
  rw [hk] at h
  simp only [pubFieldsF] at h
  rw [Option.map_eq_some'] at h
  obtain ⟨core, hcore, hm⟩ := h
  exact ⟨_, core, hcore, hm.symm⟩

theorem updateFieldsPub_inv {m0 : PublicMessage} {p : Payload} {m : PublicMessage}
    (h : updateFieldsPub m0 p = some m) :
    ∃ (hydQ : Payload → Option PublicMessage) (core : PubCoreG PublicMessage),
      pubFieldsCore hydQ p m0.core.embeds m0.core.attachments m0.core.reactions
        m0.core.channel_type = some core ∧
      m = .mk m0.rawF m0.idm core m0.loadedF := by
  simp only [updateFieldsPub] at h
  obtain ⟨k, hk⟩ : ∃ k, psize p = k + 1 := ⟨psize p - 1, by have := psize_pos p; omega⟩
  rw [hk] at h
  simp only [pubFieldsF] at h
  rw [Option.map_eq_some'] at h
  obtain ⟨core, hcore, hm⟩ := h
  exact ⟨_, core, hcore, hm.symm⟩

theorem mkPrivateMessage_inv {p : Payload} {m : PrivateMessage}
    (h : mkPrivateMessage p = some m) :
    ∃ (hydQ : Payload → Option PrivateMessage) (core : PrivCoreG PrivateMessage),
      privFieldsCore hydQ p none none none none (pget p "channel_type") = some core ∧
      m = assemblePriv p core := by
  simp only [mkPrivateMessage] at h
  obtain ⟨k, hk⟩ : ∃ k, psize p = k + 1 := ⟨psize p - 1, by have := psize_pos p; omega⟩
  rw [hk] at h
  simp only [privFieldsF] at h
  rw [Option.map_eq_some'] at h
  obtain ⟨core, hcore, hm⟩ := h
  exact ⟨_, core, hcore, hm.symm⟩

theorem updateFieldsPriv_inv {m0 : PrivateMessage} {p : Payload} {m : PrivateMessage}
    (h : updateFieldsPriv m0 p = some m) :
    ∃ (hydQ : Payload → Option PrivateMessage) (core : PrivCoreG PrivateMessage),
      privFieldsCore hydQ p m0.core.read_status m0.core.embeds m0.core.attachments
        m0.core.reactions m0.core.channel_type = some core ∧
      m = .mk m0.rawF m0.idm core m0.loadedF := by
  simp only [updateFieldsPriv] at h
  obtain ⟨k, hk⟩ : ∃ k, psize p = k + 1 := ⟨psize p - 1, by have := psize_pos p; omega⟩
  rw [hk] at h
  simp only [privFieldsF] at h
  rw [Option.map_eq_some'] at h
  obtain ⟨core, hcore, hm⟩ := h
  exact ⟨_, core, hcore, hm.symm⟩

theorem ne_nil_length_bne {ex : Payload} (h : ex ≠ []) : (ex.length != 0) = true := by
  cases ex with
  | nil => exact absurd rfl h
  | cons a l => simp

theorem pubMention4_inv {extra : Payload} {t : Val × Val × Val × Val}
    (h : pubMention4 extra = some t) :
    pget extra "mention" = some t.1 ∧ pget extra "mention_all" = some t.2.1 ∧
    pget extra "mention_roles" = some t.2.2.1 ∧ pget extra "mention_here" = some t.2.2.2 := by
  simp only [pubMention4, bind, Option.bind_eq_some, pure, Option.some.injEq] at h
  obtain ⟨a, ha, b, hb, c, hc, d, hd, ht⟩ := h
  subst ht
  exact ⟨ha, hb, hc, hd⟩

theorem pubKmParts_inv {extra : Payload} {t : Val × Val × Val}
    (h : pubKmParts extra = some t) :
    ∃ kmF, (pget extra "kmarkdown").bind Val.asObj = some kmF ∧
      pget kmF "mention_part" = some t.1 ∧ pget kmF "mention_role_part" = some t.2.1 ∧
      pget kmF "channel_part" = some t.2.2 := by
  simp only [pubKmParts, bind, Option.bind_eq_some, pure, Option.some.injEq] at h
  obtain ⟨kmV, hkmV, kmF, hkmF, a, ha, b, hb, c, hc, ht⟩ := h
  subst ht
  exact ⟨kmF, by rw [hkmV]; exact hkmF, ha, hb, hc⟩

/-- Inversion of the public hydration body when the `extra` bag is non-empty:
the Event-source branch ran, so every conversational field was read from
`extra.*`, the channel id from the top-level `target_id`, the context's guild
is the id-only reference built from `extra['guild_id']`, and the
`embeds`/`attachments`/`reactions`/`_channel_type` slots kept their old
values. -/
theorem pubFieldsCore_event_inv {hydQ : Payload → Option PublicMessage} {p ex : Payload}
    {oE oA oR oCT : Option Val} {core : PubCoreG PublicMessage}
    (hex : extraBag p = some ex) (hne : ex ≠ [])
    (h : pubFieldsCore hydQ p oE oA oR oCT = some core) :
    core.ctx.channel = ChannelRef.publicText
      { id := pget p "target_id", name := pget ex "channel_name",
        guild_id := none, loaded := false } ∧
    (∃ gid, pget ex "guild_id" = some gid ∧
       core.ctx.guild = some (mkGuild [("id", gid)]) ∧
       (∀ authorF, (pget ex "author").bind Val.asObj = some authorF →
          core.author = mkGuildUser (("guild_id", gid) :: authorF))) ∧
    core.ctx.lazyLoaded = true ∧
    core.mention = pget ex "mention" ∧
    core.mention_all = pget ex "mention_all" ∧
    core.mention_roles = pget ex "mention_roles" ∧
    core.mention_here = pget ex "mention_here" ∧
    core.embeds = oE ∧ core.attachments = oA ∧ core.reactions = oR ∧
    core.channel_type = oCT := by
  have hb := ne_nil_length_bne hne
  simp only [pubFieldsCore, hex, bind, Option.bind_eq_some, Option.some.injEq] at h
  obtain ⟨a, ha, h⟩ := h
  subst ha
  simp only [hb, if_true] at h
  simp only [pubEventFields, bind, Option.bind_eq_some, pure, Option.some.injEq] at h
  obtain ⟨gid, hgid, authorV, hauthorV, authorF, hauthorF, m4, hm4, h⟩ := h
  obtain ⟨ma, mb, mc, md⟩ := m4
  obtain ⟨km, hkm, h⟩ := h
  obtain ⟨ka, kb, kc⟩ := km
  obtain ⟨q, hq, hcore⟩ := h
  obtain ⟨hm1, hm2, hm3, hm4'⟩ := pubMention4_inv hm4
  subst hcore
  refine ⟨rfl, ⟨gid, hgid, rfl, ?_⟩, rfl, ?_, ?_, ?_, ?_, rfl, rfl, rfl, rfl⟩
  · intro aF haF
    rw [hauthorV] at haF
    simp only [Option.some_bind, hauthorF, Option.some.injEq] at haF
    subst haF
    rfl
  · simp [hm1]
  · simp [hm2]
  · simp [hm3]
  · simp [hm4']

/-- Inversion of the public hydration body when the `extra` bag is empty: the
Rest-source branch ran, so every field was read from the top-level keys (with
`None` defaults), the channel id comes from `channel_id`, the context carries
no guild, and `_channel_type` was overwritten with `PERSON`'s name. -/
theorem pubFieldsCore_rest_inv {hydQ : Payload → Option PublicMessage} {p : Payload}
    {oE oA oR oCT : Option Val} {core : PubCoreG PublicMessage}
    (hex : extraBag p = some []) 
    (h : pubFieldsCore hydQ p oE oA oR oCT = some core) :
    core.ctx.channel = ChannelRef.publicText
      { id := pget p "channel_id", name := none, guild_id := none, loaded := false } ∧
    (∀ aF, restAuthorF p = some aF → core.author = mkGuildUser aF) ∧
    core.ctx.guild = none ∧
    core.ctx.lazyLoaded = false ∧
    core.mention = pget p "mention" ∧
    core.mention_all = pget p "mention_all" ∧
    core.mention_roles = pget p "mention_roles" ∧
    core.mention_here = pget p "mention_here" ∧
    core.embeds = pget p "embeds" ∧
    core.attachments = pget p "attachments" ∧
    core.reactions = pget p "reactions" ∧
    core.channel_type = some (.vStr ChannelPrivacyTypes.PERSON.name) := by
  simp only [pubFieldsCore, hex, bind, Option.bind_eq_some, Option.some.injEq] at h
  obtain ⟨a, ha, h⟩ := h
  subst ha
  simp only [List.length_nil, bne_self_eq_false, Bool.false_eq_true, if_false] at h
  simp only [pubRestFields, bind, Option.bind_eq_some, pure, Option.some.injEq] at h
  obtain ⟨aF, haF, mi, hmi, q, hq, hcore⟩ := h
  subst hcore
  refine ⟨rfl, ?_, rfl, rfl, rfl, rfl, rfl, rfl, rfl, rfl, rfl, rfl⟩
  intro aF' haF'
  rw [haF] at haF'
  cases haF'
  rfl

/-- Inversion of the private hydration body when the `extra` bag is non-empty
(Event source): the author comes from `extra['author']` with the lazy flag
`not from_event = False`, the chat code from `extra['code']`, the guild is
`None`, and the Rest-only slots keep their old values. -/
theorem privFieldsCore_event_inv {hydQ : Payload → Option PrivateMessage} {p ex : Payload}
    {oRd oE oA oR oCT : Option Val} {core : PrivCoreG PrivateMessage}
    (hex : extraBag p = some ex) (hne : ex ≠ [])
    (h : privFieldsCore hydQ p oRd oE oA oR oCT = some core) :
    (∃ authorF, (pget ex "author").bind Val.asObj = some authorF ∧
       core.author = { fields := authorF, lazyLoaded := false }) ∧
    (∃ code, pget ex "code" = some code ∧
       core.ctx.channel = ChannelRef.privateCh
         { id := some code, target_info := core.author }) ∧
    core.ctx.guild = none ∧
    core.ctx.lazyLoaded = false ∧
    core.read_status = oRd ∧ core.embeds = oE ∧ core.attachments = oA ∧
    core.reactions = oR ∧ core.channel_type = oCT := by
  have hb := ne_nil_length_bne hne
  simp only [privFieldsCore, hex, bind, Option.bind_eq_some, Option.some.injEq] at h
  obtain ⟨a, ha, h⟩ := h
  subst ha
  simp only [hb, if_true] at h
  simp only [privEventFields, bind, Option.bind_eq_some, pure, Option.some.injEq] at h
  obtain ⟨authorV, hauthorV, authorF, hauthorF, code, hcode, q, hq, hcore⟩ := h
  subst hcore
  exact ⟨⟨authorF, by rw [hauthorV]; exact hauthorF, rfl⟩,
         ⟨code, hcode, rfl⟩, rfl, rfl, rfl, rfl, rfl, rfl, rfl⟩

/-- Inversion of the private hydration body when the `extra` bag is empty
(Rest source): an id-only author built from `author_id` with lazy flag `True`,
the chat code from the top-level `code`, guild `None`, `attachments`
normalized (`False` collapses to `None`), and `_channel_type` overwritten with
`PERSON`'s name. -/
theorem privFieldsCore_rest_inv {hydQ : Payload → Option PrivateMessage} {p : Payload}
    {oRd oE oA oR oCT : Option Val} {core : PrivCoreG PrivateMessage}
    (hex : extraBag p = some [])
    (h : privFieldsCore hydQ p oRd oE oA oR oCT = some core) :
    core.author = { fields := [("id", (pget p "author_id").getD .vNull)]
                    lazyLoaded := true } ∧
    core.ctx.channel = ChannelRef.privateCh
      { id := pget p "code", target_info := core.author } ∧
    core.ctx.guild = none ∧
    core.ctx.lazyLoaded = false ∧
    core.read_status = pget p "read_status" ∧
    core.embeds = pget p "embeds" ∧
    core.attachments = (match pget p "attachments" with
      | some (.vBool false) => none
      | o => o) ∧
    core.reactions = pget p "reactions" ∧
    core.channel_type = some (.vStr ChannelPrivacyTypes.PERSON.name) := by
  simp only [privFieldsCore, hex, bind, Option.bind_eq_some, Option.some.injEq] at h
  obtain ⟨a, ha, h⟩ := h
  subst ha
  simp only [List.length_nil, bne_self_eq_false, Bool.false_eq_true, if_false] at h
  simp only [privRestFields, bind, Option.bind_eq_some, pure, Option.some.injEq] at h
  obtain ⟨q, hq, hcore⟩ := h
  subst hcore
  exact ⟨rfl, rfl, rfl, rfl, rfl, rfl, rfl, rfl, rfl⟩

/-- Both private branches leave the context guild-less. -/
theorem privFieldsCore_guild_none {hydQ : Payload → Option PrivateMessage} {p : Payload}
    {oRd oE oA oR oCT : Option Val} {core : PrivCoreG PrivateMessage}
    (h : privFieldsCore hydQ p oRd oE oA oR oCT = some core) :
    core.ctx.guild = none := by
  simp only [privFieldsCore, bind, Option.bind_eq_some] at h
  obtain ⟨ex, hex, h⟩ := h
  by_cases hne : ex = []
  · subst hne
    have hex' : extraBag p = some [] := hex
    exact (privFieldsCore_rest_inv hex' (by
      simp only [privFieldsCore, hex', bind, Option.bind_eq_some, Option.some.injEq]
      exact ⟨[], rfl, h⟩)).2.2.1
  · exact (privFieldsCore_event_inv hex hne (by
      simp only [privFieldsCore, hex, bind, Option.bind_eq_some, Option.some.injEq]
      exact ⟨ex, rfl, h⟩)).2.2.1

/-! ## Sample message payloads for witnesses and counterexamples -/

/-- The `extra` bag of an Event-shaped public message frame. -/
def exEvtSample : Payload :=
  [("guild_id", .vStr "g7"), ("channel_name", .vStr "general"),
   ("author", .vObj [("id", .vStr "u1")]),
   ("mention", .vList [.vStr "u2"]), ("mention_all", .vBool false),
   ("mention_roles", .vList []), ("mention_here", .vBool false),
   ("kmarkdown", .vObj [("mention_part", .vList []), ("mention_role_part", .vList []),
                        ("channel_part", .vList [])])]

/-- An Event-shaped public message frame (non-empty `extra`). -/
def pEvtSample : Payload :=
  [("msg_id", .vStr "m2"), ("type", .vInt 9), ("channel_type", .vStr "GROUP"),
   ("target_id", .vStr "c9"), ("author_id", .vStr "u1"), ("content", .vStr "hey"),
   ("extra", .vObj exEvtSample)]

/-- A Rest-shaped public message payload (no `extra` key at all). -/
def pRestSample : Payload :=
  [("id", .vStr "m1"), ("type", .vInt 9), ("channel_id", .vStr "c1"),
   ("author", .vObj [("id", .vStr "u3")]), ("content", .vStr "hi"),
   ("mention", .vList [.vStr "u2"])]

/-- A Rest-shaped private message payload with a `False` attachments flag. -/
def privRestSample : Payload :=
  [("id", .vStr "m4"), ("type", .vInt 9), ("code", .vStr "cc2"),
   ("author_id", .vStr "u6"), ("attachments", .vBool false)]

/-- The transport's answer to the channel fetch of `PublicMessage.load()`'s
second step. -/
def chanRespSample : Payload :=
  [("id", .vStr "c1"), ("name", .vStr "general"), ("guild_id", .vStr "g9")]

def mEvtW : PublicMessage := (mkPublicMessage pEvtSample).get (by rfl)

def mRestW : PublicMessage := (mkPublicMessage pRestSample).get (by rfl)

def mPrivRestW : PrivateMessage := (mkPrivateMessage privRestSample).get (by rfl)

/-! ## Claim C1 -/

/-- C1: for every payload successfully hydrating a `PublicMessage` or a
`PrivateMessage`, the hydration takes the Event-source branch exactly when the
payload's `extra` bag is non-empty — conversational fields (mention data,
author, chat code) are then read from `extra.*` and the public channel id from
`target_id`; with an empty bag the Rest-source branch reads everything from the
top-level keys (`channel_id`, `mention*`, `author`, `code`, `author_id`). -/
theorem claim_C1_hydration_source :
    (∀ (p ex : Payload) (m : PublicMessage),
       extraBag p = some ex → ex ≠ [] → mkPublicMessage p = some m →
       m.core.ctx.channel = ChannelRef.publicText
         { id := pget p "target_id", name := pget ex "channel_name",
           guild_id := none, loaded := false } ∧
       m.core.mention = pget ex "mention" ∧
       m.core.mention_all = pget ex "mention_all" ∧
       m.core.mention_roles = pget ex "mention_roles" ∧
       m.core.mention_here = pget ex "mention_here" ∧
       m.core.ctx.guild ≠ none)
  ∧ (∀ (p : Payload) (m : PublicMessage),
       extraBag p = some [] → mkPublicMessage p = some m →
       m.core.ctx.channel = ChannelRef.publicText
         { id := pget p "channel_id", name := none, guild_id := none, loaded := false } ∧
       m.core.mention = pget p "mention" ∧
       m.core.mention_all = pget p "mention_all" ∧
       m.core.mention_roles = pget p "mention_roles" ∧
       m.core.mention_here = pget p "mention_here" ∧
       (∀ aF, restAuthorF p = some aF → m.core.author = mkGuildUser aF) ∧
       m.core.ctx.guild = none)
  ∧ (∀ (p ex : Payload) (m : PrivateMessage),
       extraBag p = some ex → ex ≠ [] → mkPrivateMessage p = some m →
       (∃ authorF, (pget ex "author").bind Val.asObj = some authorF ∧
          m.core.author = { fields := authorF, lazyLoaded := false }) ∧
       (∃ code, pget ex "code" = some code ∧
          m.core.ctx.channel = ChannelRef.privateCh
            { id := some code, target_info := m.core.author }))
  ∧ (∀ (p : Payload) (m : PrivateMessage),
       extraBag p = some [] → mkPrivateMessage p = some m →
       m.core.author = { fields := [("id", (pget p "author_id").getD .vNull)]
                         lazyLoaded := true } ∧
       m.core.ctx.channel = ChannelRef.privateCh
         { id := pget p "code", target_info := m.core.author }) := by
  refine ⟨?_, ?_, ?_, ?_⟩
  · intro p ex m hex hne h
    obtain ⟨hydQ, core, hcore, hm⟩ := mkPublicMessage_inv h
    subst hm
    have hacc : (assemblePub p core).core = core := rfl
    rw [hacc]
    obtain ⟨h1, ⟨gid, hgid, hguild, -⟩, -, h4, h5, h6, h7, -⟩ :=
      pubFieldsCore_event_inv hex hne hcore
    exact ⟨h1, h4, h5, h6, h7, by rw [hguild]; exact Option.some_ne_none _⟩
  · intro p m hex h
    obtain ⟨hydQ, core, hcore, hm⟩ := mkPublicMessage_inv h
    subst hm
    have hacc : (assemblePub p core).core = core := rfl
    rw [hacc]
    obtain ⟨h1, hauthor, hguild, -, h5, h6, h7, h8, -⟩ :=
      pubFieldsCore_rest_inv hex hcore
    exact ⟨h1, h5, h6, h7, h8, hauthor, hguild⟩
  · intro p ex m hex hne h
    obtain ⟨hydQ, core, hcore, hm⟩ := mkPrivateMessage_inv h
    subst hm
    have hacc : (assemblePriv p core).core = core := rfl
    rw [hacc]
    obtain ⟨ha, hc, -⟩ := privFieldsCore_event_inv hex hne hcore
    exact ⟨ha, hc⟩
  · intro p m hex h
    obtain ⟨hydQ, core, hcore, hm⟩ := mkPrivateMessage_inv h
    subst hm
    have hacc : (assemblePriv p core).core = core := rfl
    rw [hacc]
    obtain ⟨ha, hc, -⟩ := privFieldsCore_rest_inv hex hcore
    exact ⟨ha, hc⟩

/-- Witness for C1: the concrete Event-shaped and Rest-shaped samples. -/
theorem claim_C1_hydration_source_w :
    (extraBag pEvtSample = some exEvtSample ∧ exEvtSample ≠ [] ∧
     mkPublicMessage pEvtSample = some mEvtW ∧
     (mEvtW.core.ctx.channel = ChannelRef.publicText
        { id := pget pEvtSample "target_id", name := pget exEvtSample "channel_name",
          guild_id := none, loaded := false } ∧
      mEvtW.core.mention = pget exEvtSample "mention" ∧
      mEvtW.core.mention_all = pget exEvtSample "mention_all" ∧
      mEvtW.core.mention_roles = pget exEvtSample "mention_roles" ∧
      mEvtW.core.mention_here = pget exEvtSample "mention_here" ∧
      mEvtW.core.ctx.guild ≠ none)) ∧
    (extraBag pRestSample = some [] ∧
     mkPrivateMessage privRestSample = some mPrivRestW ∧
     (mPrivRestW.core.author = { fields := [("id", (pget privRestSample "author_id").getD .vNull)]
                                 lazyLoaded := true } ∧
      mPrivRestW.core.ctx.channel = ChannelRef.privateCh
        { id := pget privRestSample "code", target_info := mPrivRestW.core.author })) :=
  ⟨⟨rfl, by simp [exEvtSample], rfl,
    claim_C1_hydration_source.1 pEvtSample exEvtSample mEvtW rfl (by simp [exEvtSample]) rfl⟩,
   ⟨rfl, rfl,
    claim_C1_hydration_source.2.2.2 privRestSample mPrivRestW rfl rfl⟩⟩

/-! ## Claim C3 -/

theorem pubFieldsCore_channelPublic {hydQ : Payload → Option PublicMessage} {p : Payload}
    {oE oA oR oCT : Option Val} {core : PubCoreG PublicMessage}
    (h : pubFieldsCore hydQ p oE oA oR oCT = some core) :
    ∃ c, core.ctx.channel = ChannelRef.publicText c := by
  simp only [pubFieldsCore, bind, Option.bind_eq_some] at h
  obtain ⟨ex, hex, h⟩ := h
  by_cases hne : ex = []
  · subst hne
    simp only [List.length_nil, bne_self_eq_false, Bool.false_eq_true, if_false] at h
    simp only [pubRestFields, bind, Option.bind_eq_some, pure, Option.some.injEq] at h
    obtain ⟨aF, haF, mi, hmi, q, hq, hcore⟩ := h
    subst hcore
    exact ⟨_, rfl⟩
  · have hb := ne_nil_length_bne hne
    simp only [hb, if_true] at h
    simp only [pubEventFields, bind, Option.bind_eq_some, pure, Option.some.injEq] at h
    obtain ⟨gid, hgid, aV, haV, aF, haF, m4, hm4, h⟩ := h
    obtain ⟨ma, mb, mc, md⟩ := m4
    obtain ⟨km, hkm, h⟩ := h
    obtain ⟨ka, kb, kc⟩ := km
    obtain ⟨q, hq, hcore⟩ := h
    subst hcore
    exact ⟨_, rfl⟩

theorem finishPubLoad_guild (m1 : PublicMessage) (c2 : PublicTextChannel) :
    (finishPubLoad m1 c2).core.ctx.guild = some (mkGuild [("id", c2.guild_id.getD .vNull)]) := by
  cases m1; rfl

/-- Counterexample for C3 as frozen: hydrating a `PublicMessage` from the
Rest-shaped sample payload succeeds, yet its context's guild reference is
`None` — so not every `PublicMessage` context holds a non-null guild. -/
theorem claim_C3_counterexample :
    (mkPublicMessage pRestSample).map (fun m => m.core.ctx.guild) = some none := rfl

/-- C3 (amended): `Context.guild` is `None` for every `PrivateMessage` context;
a `PublicMessage` context holds a non-null guild reference iff the message was
hydrated from an Event-shaped (non-empty `extra`) payload — a Rest-hydrated
`PublicMessage` context has `guild = None` until a successful `load()` installs
the guild reference (after which it is always non-null). -/
theorem claim_C3_amended :
    (∀ (p ex : Payload) (m : PublicMessage),
       extraBag p = some ex → mkPublicMessage p = some m →
       (m.core.ctx.guild ≠ none ↔ ex ≠ []))
  ∧ (∀ (p : Payload) (m : PrivateMessage),
       mkPrivateMessage p = some m → m.core.ctx.guild = none)
  ∧ (∀ (vR cR : Except Unit Payload) (m m' : PublicMessage),
       pubLoad vR cR m = (m', Except.ok ()) → m'.core.ctx.guild ≠ none) := by
  refine ⟨?_, ?_, ?_⟩
  · intro p ex m hex h
    obtain ⟨hydQ, core, hcore, hm⟩ := mkPublicMessage_inv h
    subst hm
    have hacc : (assemblePub p core).core = core := rfl
    rw [hacc]
    by_cases hne : ex = []
    · subst hne
      obtain ⟨-, -, hguild, -⟩ := pubFieldsCore_rest_inv hex hcore
      simp [hguild]
    · obtain ⟨-, ⟨gid, -, hguild, -⟩, -⟩ := pubFieldsCore_event_inv hex hne hcore
      simp [hguild, hne]
  · intro p m h
    obtain ⟨hydQ, core, hcore, hm⟩ := mkPrivateMessage_inv h
    subst hm
    have hacc : (assemblePriv p core).core = core := rfl
    rw [hacc]
    exact privFieldsCore_guild_none hcore
  · intro vR cR m m' h
    cases vR with
    | error e => simp only [pubLoad] at h; injection h with h1 h2; cases h2
    | ok p =>
      simp only [pubLoad] at h
      cases hup : updateFieldsPub m p with
      | none => rw [hup] at h; injection h with h1 h2; cases h2
      | some m1 =>
        rw [hup] at h
        dsimp only at h
        obtain ⟨hydQ, core, hcore, hm1⟩ := updateFieldsPub_inv hup
        obtain ⟨c, hc⟩ := pubFieldsCore_channelPublic hcore
        have hch : m1.core.ctx.channel = ChannelRef.publicText c := by
          rw [hm1]; exact hc
        rw [hch] at h
        dsimp only at h
        by_cases hg : c.guild_id.isNone = true
        · simp only [hg, if_true] at h
          cases cR with
          | error e => injection h with h1 h2; cases h2
          | ok cp =>
            injection h with h1 h2
            rw [← h1, finishPubLoad_guild]
            exact Option.some_ne_none _
        · simp only [hg, if_false] at h
          injection h with h1 h2
          rw [← h1, finishPubLoad_guild]
          exact Option.some_ne_none _

/-- Witness for C3 (amended): the Rest sample (guild `None` ↔ `extra` empty),
the private Rest sample, and a completed two-step load. -/
theorem claim_C3_amended_w :
    (extraBag pRestSample = some [] ∧ mkPublicMessage pRestSample = some mRestW ∧
      (mRestW.core.ctx.guild ≠ none ↔ ([] : Payload) ≠ [])) ∧
    (mkPrivateMessage privRestSample = some mPrivRestW ∧
      mPrivRestW.core.ctx.guild = none) ∧
    (pubLoad (Except.ok pRestSample) (Except.ok chanRespSample) mRestW
       = ((pubLoad (Except.ok pRestSample) (Except.ok chanRespSample) mRestW).1,
          Except.ok ()) ∧
     (pubLoad (Except.ok pRestSample) (Except.ok chanRespSample) mRestW).1.core.ctx.guild
       ≠ none) :=
  ⟨⟨rfl, rfl, claim_C3_amended.1 pRestSample [] mRestW rfl rfl⟩,
   ⟨rfl, claim_C3_amended.2.1 privRestSample mPrivRestW rfl⟩,
   ⟨rfl, claim_C3_amended.2.2 (Except.ok pRestSample) (Except.ok chanRespSample) mRestW
      (pubLoad (Except.ok pRestSample) (Except.ok chanRespSample) mRestW).1 rfl⟩⟩

/-! ## Claim C4 -/

theorem finishPubLoad_loadedF (m1 : PublicMessage) (c2 : PublicTextChannel) :
    (finishPubLoad m1 c2).loadedF = true := by
  cases m1; rfl

theorem withLoaded_loadedF (m : PublicMessage) (b : Bool) :
    (m.withLoaded b).loadedF = b := by
  cases m; rfl

/-- C4: `PublicMessage.load()` marks the message hydrated only after both
resolution steps succeed — the returned flag is `true` exactly when the whole
load succeeded (given it was `false` before); a failing view fetch fails the
whole load, and so does a failing channel fetch when the hydrated channel's
guild id is still unknown, in both cases leaving the flag `false`. -/
theorem claim_C4_load_flag :
    ∀ (vR cR : Except Unit Payload) (m : PublicMessage), m.loadedF = false →
      ((pubLoad vR cR m).2.isOk = true → (pubLoad vR cR m).1.loadedF = true)
      ∧ ((pubLoad vR cR m).2.isOk = false → (pubLoad vR cR m).1.loadedF = false)
      ∧ (vR.isOk = false → (pubLoad vR cR m).2.isOk = false)
      ∧ (∀ (p : Payload) (m1 : PublicMessage) (c : PublicTextChannel),
           vR = Except.ok p → updateFieldsPub m p = some m1 →
           m1.core.ctx.channel = ChannelRef.publicText c → c.guild_id = none →
           cR.isOk = false → (pubLoad vR cR m).2.isOk = false) := by
  intro vR cR m hm
  cases vR with
  | error e =>
    have hres : pubLoad (Except.error e) cR m = (m, Except.error e) := rfl
    rw [hres]
    exact ⟨fun h => Bool.noConfusion h, fun _ => hm, fun _ => rfl,
           fun p m1 c hp => Except.noConfusion hp⟩
  | ok p =>
    cases hup : updateFieldsPub m p with
    | none =>
      have hres : pubLoad (Except.ok p) cR m = (m, Except.error ()) := by
        simp only [pubLoad, hup]
      rw [hres]
      refine ⟨fun h => Bool.noConfusion h, fun _ => hm, fun h => Bool.noConfusion h, ?_⟩
      intro p' m1 c hp hup'
      injection hp with hpp
      subst hpp
      rw [hup] at hup'
      exact fun _ _ _ => Option.noConfusion hup'
    | some m1 =>
      obtain ⟨hydQ, core, hcore, hm1⟩ := updateFieldsPub_inv hup
      obtain ⟨c0, hc0⟩ := pubFieldsCore_channelPublic hcore
      have hch : m1.core.ctx.channel = ChannelRef.publicText c0 := by
        rw [hm1]; exact hc0
      have hm1l : m1.loadedF = false := by rw [hm1]; exact hm
      by_cases hg : c0.guild_id.isNone = true
      · cases cR with
        | error e =>
          have hres : pubLoad (Except.ok p) (Except.error e) m = (m1, Except.error e) := by
            simp only [pubLoad, hup, hch, hg, if_true]
          rw [hres]
          exact ⟨fun h => Bool.noConfusion h, fun _ => hm1l, fun h => Bool.noConfusion h,
                 fun p' m1' c' hp hup' hch' hg' hcr => rfl⟩
        | ok cp =>
          have hres : pubLoad (Except.ok p) (Except.ok cp) m
              = (finishPubLoad m1 (channelLoadApply c0 cp), Except.ok ()) := by
            simp only [pubLoad, hup, hch, hg, if_true]
          rw [hres]
          exact ⟨fun _ => finishPubLoad_loadedF m1 _, fun h => Bool.noConfusion h,
                 fun h => Bool.noConfusion h,
                 fun p' m1' c' hp hup' hch' hg' hcr => Bool.noConfusion hcr⟩
      · have hgn : c0.guild_id.isNone = false := by
          revert hg
          cases c0.guild_id <;> simp
        have hres : pubLoad (Except.ok p) cR m = (finishPubLoad m1 c0, Except.ok ()) := by
          simp only [pubLoad, hup, hch, hgn, Bool.false_eq_true, if_false]
        rw [hres]
        refine ⟨fun _ => finishPubLoad_loadedF m1 c0, fun h => Bool.noConfusion h,
                fun h => Bool.noConfusion h, ?_⟩
        intro p' m1' c' hp hup' hch' hg' hcr
        injection hp with hpp
        subst hpp
        rw [hup] at hup'
        injection hup' with hmm
        subst hmm
        rw [hch] at hch'
        injection hch' with hcc
        subst hcc
        rw [hg'] at hgn
        exact Bool.noConfusion hgn

/-- Witness for C4: a failing view fetch against the hydrated Rest sample
message (flag `false` beforehand) leaves the flag `false` and fails the load. -/
theorem claim_C4_load_flag_w :
    mRestW.loadedF = false ∧
    (((pubLoad (Except.error ()) (Except.error ()) mRestW).2.isOk = true →
        (pubLoad (Except.error ()) (Except.error ()) mRestW).1.loadedF = true)
     ∧ ((pubLoad (Except.error ()) (Except.error ()) mRestW).2.isOk = false →
        (pubLoad (Except.error ()) (Except.error ()) mRestW).1.loadedF = false)
     ∧ ((Except.error () : Except Unit Payload).isOk = false →
        (pubLoad (Except.error ()) (Except.error ()) mRestW).2.isOk = false)
     ∧ (∀ (p : Payload) (m1 : PublicMessage) (c : PublicTextChannel),
          (Except.error () : Except Unit Payload) = Except.ok p →
          updateFieldsPub mRestW p = some m1 →
          m1.core.ctx.channel = ChannelRef.publicText c → c.guild_id = none →
          (Except.error () : Except Unit Payload).isOk = false →
          (pubLoad (Except.error ()) (Except.error ()) mRestW).2.isOk = false)) :=
  ⟨rfl, claim_C4_load_flag (Except.error ()) (Except.error ()) mRestW rfl⟩

/-! ## Claim C7 -/

/-- C7: a `PrivateMessage` hydrated from a Rest-shaped payload normalizes
`attachments`: a `False` flag and an absent key both yield `None`, and any
other present value (e.g. an object) is preserved unchanged. -/
theorem claim_C7_attachments :
    ∀ (p : Payload) (m : PrivateMessage),
      extraBag p = some [] → mkPrivateMessage p = some m →
      m.core.attachments = (match pget p "attachments" with
        | some (.vBool false) => none
        | o => o)
      ∧ (pget p "attachments" = some (.vBool false) → m.core.attachments = none)
      ∧ (pget p "attachments" = none → m.core.attachments = none)
      ∧ (∀ v, pget p "attachments" = some v → v ≠ .vBool false →
           m.core.attachments = some v) := by
  intro p m hex h
  obtain ⟨hydQ, core, hcore, hm⟩ := mkPrivateMessage_inv h
  subst hm
  have hacc : (assemblePriv p core).core = core := rfl
  rw [hacc]
  obtain ⟨-, -, -, -, -, -, hatt, -⟩ := privFieldsCore_rest_inv hex hcore
  refine ⟨hatt, ?_, ?_, ?_⟩
  · intro hval; rw [hatt, hval]
  · intro hval; rw [hatt, hval]
  · intro v hval hne
    rw [hatt, hval]
    cases v with
    | vBool b => cases b with
      | false => exact absurd rfl hne
      | true => rfl
    | vNull => rfl
    | vInt n => rfl
    | vStr s => rfl
    | vList l => rfl
    | vObj o => rfl

/-- Witness for C7: the private Rest sample carries `attachments: false`, which
normalizes to `None`. -/
theorem claim_C7_attachments_w :
    extraBag privRestSample = some [] ∧
    mkPrivateMessage privRestSample = some mPrivRestW ∧
    pget privRestSample "attachments" = some (.vBool false) ∧
    mPrivRestW.core.attachments = none :=
  ⟨rfl, rfl, rfl,
   (claim_C7_attachments privRestSample mPrivRestW rfl rfl).2.1 rfl⟩

/-! ## Claim C8 -/

/-- C8: every guild-only predicate (`is_bot_mentioned`, `is_user_mentioned`,
`is_mention_all`) evaluated on a message that is not a `PublicMessage` returns
`False` instead of raising, and `is_bot_mentioned` does so without awaiting the
network-backed `bot.fetch_me()` (fetch count `0`: the `isinstance` short-circuit
comes first). -/
theorem claim_C8_rules_false_on_private :
    ∀ (bot : BotSelf) (u : User) (pm : PrivateMessage),
      Rule.is_bot_mentioned bot (Message.priv pm) = (some false, 0)
      ∧ Rule.is_user_mentioned u (Message.priv pm) = some false
      ∧ Rule.is_mention_all (Message.priv pm) = some (Val.vBool false) := by
  intro bot u pm
  exact ⟨rfl, rfl, rfl⟩

/-! ## Claim C9 -/

theorem finishPubLoad_channel_type (m1 : PublicMessage) (c2 : PublicTextChannel) :
    (finishPubLoad m1 c2).core.channel_type = m1.core.channel_type := by
  cases m1; rfl

theorem withLoaded_channel_type (m : PublicMessage) (b : Bool) :
    (m.withLoaded b).core.channel_type = m.core.channel_type := by
  cases m; rfl

/-- C9: hydrating a `PublicMessage` from a Rest-shaped payload (empty `extra`
bag) overwrites its `_channel_type` with `ChannelPrivacyTypes.PERSON.name`, so
the `channel_type` property then reports the private/person channel type even
though the message is a public-channel message — at construction, on any
`_update_fields` re-run, and hence after a `load()` whose view payload is
Rest-shaped. -/
theorem claim_C9_rest_channel_type :
    (∀ (p : Payload) (m : PublicMessage),
       extraBag p = some [] → mkPublicMessage p = some m →
       m.core.channel_type = some (.vStr ChannelPrivacyTypes.PERSON.name)
       ∧ m.core.channel_type.bind ChannelPrivacyTypes.ofVal
           = some ChannelPrivacyTypes.PERSON)
  ∧ (∀ (m0 m : PublicMessage) (p : Payload),
       extraBag p = some [] → updateFieldsPub m0 p = some m →
       m.core.channel_type = some (.vStr ChannelPrivacyTypes.PERSON.name))
  ∧ (∀ (cR : Except Unit Payload) (m m' : PublicMessage) (p : Payload),
       extraBag p = some [] →
       pubLoad (Except.ok p) cR m = (m', Except.ok ()) →
       m'.core.channel_type = some (.vStr ChannelPrivacyTypes.PERSON.name)) := by
  refine ⟨?_, ?_, ?_⟩
  · intro p m hex h
    obtain ⟨hydQ, core, hcore, hm⟩ := mkPublicMessage_inv h
    subst hm
    have hacc : (assemblePub p core).core = core := rfl
    rw [hacc]
    have hct := (pubFieldsCore_rest_inv hex hcore).2.2.2.2.2.2.2.2.2.2.2
    exact ⟨hct, by rw [hct]; rfl⟩
  · intro m0 m p hex h
    obtain ⟨hydQ, core, hcore, hm⟩ := updateFieldsPub_inv h
    subst hm
    exact (pubFieldsCore_rest_inv hex hcore).2.2.2.2.2.2.2.2.2.2.2
  · intro cR m m' p hex h
    simp only [pubLoad] at h
    cases hup : updateFieldsPub m p with
    | none => rw [hup] at h; injection h with h1 h2; cases h2
    | some m1 =>
      rw [hup] at h
      dsimp only at h
      obtain ⟨hydQ, core, hcore, hm1⟩ := updateFieldsPub_inv hup
      have hct : m1.core.channel_type = some (.vStr ChannelPrivacyTypes.PERSON.name) := by
        rw [hm1]
        exact (pubFieldsCore_rest_inv hex hcore).2.2.2.2.2.2.2.2.2.2.2
      obtain ⟨c, hc⟩ := pubFieldsCore_channelPublic hcore
      have hch : m1.core.ctx.channel = ChannelRef.publicText c := by
        rw [hm1]; exact hc
      rw [hch] at h
      dsimp only at h
      by_cases hg : c.guild_id.isNone = true
      · simp only [hg, if_true] at h
        cases cR with
        | error e => injection h with h1 h2; cases h2
        | ok cp =>
          injection h with h1 h2
          rw [← h1, finishPubLoad_channel_type]
          exact hct
      · simp only [hg, if_false] at h
        injection h with h1 h2
        rw [← h1, finishPubLoad_channel_type]
        exact hct

/-- Witness for C9: the Rest-shaped public sample reports the `PERSON` channel
type after hydration. -/
theorem claim_C9_rest_channel_type_w :
    extraBag pRestSample = some [] ∧
    mkPublicMessage pRestSample = some mRestW ∧
    (mRestW.core.channel_type = some (.vStr ChannelPrivacyTypes.PERSON.name)
     ∧ mRestW.core.channel_type.bind ChannelPrivacyTypes.ofVal
         = some ChannelPrivacyTypes.PERSON) :=
  ⟨rfl, rfl, claim_C9_rest_channel_type.1 pRestSample mRestW rfl rfl⟩
